import Mathlib

/-!
Shallow embedding of the long-running asynchronous video-generation job client
of this repository (src/services/geminiService.ts): the singleton accessor
GeminiVideoService.getInstance and the method generateCinematicAnimation,
which submits a generation request, polls the returned operation until done,
resolves the artifact URI, downloads the binary and wraps it as a local
artifact. External calls (submit, poll, fetch) are modelled by an environment
oracle; a run is a list of observable events plus an outcome.
-/

namespace Gemini

/-- Innermost record of the upstream response shape: the playable reference
`video.uri` of one generated item. -/
structure Video where
  uri : Option String
deriving DecidableEq

/-- One generated item of the upstream response. -/
structure GeneratedVideo where
  video : Option Video
deriving DecidableEq

/-- Response payload of a completed operation: the optional list of generated
items. -/
structure OpResponse where
  generatedVideos : Option (List GeneratedVideo)
deriving DecidableEq

/-- Operation handle returned by the submission call and by every poll call:
a done flag and an optional response payload. -/
structure Operation where
  done : Bool
  response : Option OpResponse
deriving DecidableEq

/-- Submission request as assembled by generateCinematicAnimation: model id,
prompt, image bytes with declared mime type, and the generation config
(numberOfVideos, resolution, aspectRatio). -/
structure SubmitRequest where
  model : String
  prompt : String
  imageBytes : String
  mimeType : String
  numberOfVideos : Nat
  resolution : String
  aspectRatio : String
deriving DecidableEq

/-- Result of the binary fetch of the artifact URI: a success flag `ok` and
the body bytes (the blob). -/
structure FetchResponse where
  ok : Bool
  blob : List Nat
deriving DecidableEq

/-- Locally addressable resource produced by URL.createObjectURL over the
downloaded blob. -/
structure LocalArtifact where
  blob : List Nat
deriving DecidableEq

/-- Model of URL.createObjectURL: wrap the blob as a local artifact. -/
def createObjectURL (b : List Nat) : LocalArtifact := ⟨b⟩

/-- Environment oracle for one run: the access credential appended to the
download URL, the outcome of the submission call, the outcome of the k-th
poll call (k counted from 0), and the response of fetching a URL. Errors are
carried as their message strings. -/
structure Env where
  apiKey : String
  submit : SubmitRequest → Except String Operation
  pollResult : Nat → Except String Operation
  fetch : String → FetchResponse

/-- Observable events of one run of generateCinematicAnimation, in order:
progress messages delivered to the status callback, the submission call, the
10-second waits, the poll calls (numbered from 0) and the binary fetch. -/
inductive Event where
  | progress (msg : String)
  | submitCall (req : SubmitRequest)
  | wait (ms : Nat)
  | pollCall (k : Nat)
  | fetchCall (url : String)
deriving DecidableEq

/-- Fixed prompt embedded in generateCinematicAnimation. -/
def cinematicPrompt : String :=
  "Cinematic realistic animation from this image. Long flowing white hair moving gently in cold mountain wind, smooth and natural flow. Wavy hair strands following the wind direction. Facial expression and features remain unchanged. Fine snow, light dust, and atmospheric particles floating dynamically with depth of field. Red ribbons and fabric fluttering softly. Static camera with very subtle slow push-in. Epic fantasy style, high detail, soft cold lighting, serene yet powerful atmosphere, smooth motion, no distortion."

/-- Progress message emitted before the submission call. -/
def initializingMsg : String := "Initializing video generation engine..."

/-- Progress message emitted right after the submission call returns. -/
def craftingMsg : String := "Crafting visual physics and hair dynamics..."

/-- Progress message emitted right before the binary download. -/
def downloadingMsg : String := "Downloading final high-fidelity export..."

/-- Error message thrown when the completed operation has no video URI. -/
def missingArtifactMsg : String := "Failed to retrieve generated video URL."

/-- Error message thrown when the binary download has a non-success status. -/
def downloadFailedMsg : String := "Failed to fetch the video data."

/-- Substring the catch block looks for in error messages. -/
def credentialSubstr : String := "Requested entity was not found"

/-- Substring the specification names as the credential-rejection marker. -/
def specCredentialSubstr : String := "entity was not found"

/-- Distinguished error message signalling an invalid credential. -/
def apiKeyResetMsg : String := "API_KEY_RESET"

/-- The six cyclic flavor-text strings shown while polling. -/
def loadingMessages : List String :=
  ["Simulating mountain wind patterns...",
   "Rendering atmospheric particle depth...",
   "Polishing hair strand animations...",
   "Applying cinematic lighting passes...",
   "Finalizing realistic motion vectors...",
   "Almost ready for your vision..."]

/-- Request record sent to the submission call for a given image payload. -/
def mkSubmitRequest (imageBase64 : String) : SubmitRequest :=
  { model := "veo-3.1-fast-generate-preview"
    prompt := cinematicPrompt
    imageBytes := imageBase64
    mimeType := "image/png"
    numberOfVideos := 1
    resolution := "1080p"
    aspectRatio := "16:9" }

/-- Optional-chained extraction of the download link:
`operation.response.generatedVideos[0].video.uri`. -/
def downloadLinkOf (op : Operation) : Option String :=
  (((op.response.bind OpResponse.generatedVideos).bind List.head?).bind
    GeneratedVideo.video).bind Video.uri

/-- Boolean substring test: model of String.prototype.includes. -/
def stringIncludes (s sub : String) : Bool :=
  decide (List.IsInfix sub.toList s.toList)

/-- Remapping performed by the catch block: an error whose message includes
the credential substring becomes the API_KEY_RESET error, every other error
is rethrown verbatim. -/
def catchMap (e : String) : String :=
  if stringIncludes e credentialSubstr then apiKeyResetMsg else e

/-- The poll loop: while the operation is not done, wait 10 seconds, emit the
next cyclic loading message, and re-query the operation. The fuel bounds how
many iterations are unfolded; none reports that the run needs more
iterations. The last argument is messageIndex, also the ordinal of the next
poll call. Returns the event trace and either the final done operation or the
error raised by a poll call. -/
def pollLoop (env : Env) : Nat → Operation → Nat → Option (List Event × Except String Operation)
  | 0, op, _ =>
      if op.done then some ([], Except.ok op) else none
  | Nat.succ f, op, j =>
      if op.done then some ([], Except.ok op)
      else
        match env.pollResult j with
        | Except.error e =>
            some ([Event.wait 10000,
                   Event.progress (loadingMessages.getD (j % loadingMessages.length) ""),
                   Event.pollCall j],
                  Except.error e)
        | Except.ok op2 =>
            match pollLoop env f op2 (j + 1) with
            | none => none
            | some (tr, r) =>
                some (Event.wait 10000 ::
                      Event.progress (loadingMessages.getD (j % loadingMessages.length) "") ::
                      Event.pollCall j :: tr, r)

/-- Body of the try block of generateCinematicAnimation: submission, the
crafting progress message, the poll loop, link extraction, the downloading
progress message and the binary fetch. Outcomes carry raw (unmapped) error
messages. -/
def tryBody (env : Env) (imageBase64 : String) (fuel : Nat) :
    Option (List Event × Except String LocalArtifact) :=
  match env.submit (mkSubmitRequest imageBase64) with
  | Except.error e =>
      some ([Event.submitCall (mkSubmitRequest imageBase64)], Except.error e)
  | Except.ok op0 =>
    match pollLoop env fuel op0 0 with
    | none => none
    | some (ptr, Except.error e) =>
        some (Event.submitCall (mkSubmitRequest imageBase64) ::
              Event.progress craftingMsg :: ptr, Except.error e)
    | some (ptr, Except.ok opF) =>
        match downloadLinkOf opF with
        | none =>
            some (Event.submitCall (mkSubmitRequest imageBase64) ::
                  Event.progress craftingMsg :: ptr, Except.error missingArtifactMsg)
        | some link =>
            some (Event.submitCall (mkSubmitRequest imageBase64) ::
                  Event.progress craftingMsg ::
                  (ptr ++ [Event.progress downloadingMsg,
                           Event.fetchCall (link ++ "&key=" ++ env.apiKey)]),
                  if (env.fetch (link ++ "&key=" ++ env.apiKey)).ok then
                    Except.ok (createObjectURL (env.fetch (link ++ "&key=" ++ env.apiKey)).blob)
                  else Except.error downloadFailedMsg)

/-- Full model of generateCinematicAnimation: the initializing progress
message, the try body, and the catch block remapping credential errors. -/
def generateCinematicAnimation (env : Env) (imageBase64 : String) (fuel : Nat) :
    Option (List Event × Except String LocalArtifact) :=
  match tryBody env imageBase64 fuel with
  | none => none
  | some (tr, Except.ok a) =>
      some (Event.progress initializingMsg :: tr, Except.ok a)
  | some (tr, Except.error e) =>
      some (Event.progress initializingMsg :: tr, Except.error (catchMap e))

/-- Progress strings delivered to the status callback, in order. -/
def progressMessages (tr : List Event) : List String :=
  tr.filterMap fun e =>
    match e with
    | Event.progress m => some m
    | _ => none

/-- Number of wait events in a trace. -/
def countWaits (tr : List Event) : Nat :=
  (tr.filter fun e =>
    match e with
    | Event.wait _ => true
    | _ => false).length

/-- Number of binary fetch events in a trace. -/
def countFetches (tr : List Event) : Nat :=
  (tr.filter fun e =>
    match e with
    | Event.fetchCall _ => true
    | _ => false).length

/-- Trace produced by n not-done loop iterations starting at messageIndex j. -/
def loopTraceFrom : Nat → Nat → List Event
  | _, 0 => []
  | j, Nat.succ n =>
      Event.wait 10000 ::
      Event.progress (loadingMessages.getD (j % loadingMessages.length) "") ::
      Event.pollCall j :: loopTraceFrom (j + 1) n

/-- State behind GeminiVideoService: the allocation counter for fresh
instances and the private static field holding the instance (identified by
its allocation id), absent until first use. -/
structure ServiceState where
  nextId : Nat
  inst : Option Nat
deriving DecidableEq

/-- Model of GeminiVideoService.getInstance: allocate a fresh instance when
the static field is empty, otherwise return the stored instance unchanged. -/
def getInstance (s : ServiceState) : Nat × ServiceState :=
  match s.inst with
  | none => (s.nextId, { nextId := s.nextId + 1, inst := some s.nextId })
  | some i => (i, s)

/-- State after k calls of getInstance starting from s. -/
def stateAfter (s : ServiceState) : Nat → ServiceState
  | 0 => s
  | Nat.succ k => (getInstance (stateAfter s k)).2

/-- Instance returned by call number k (counted from 0) of getInstance. -/
def callResult (s : ServiceState) (k : Nat) : Nat :=
  (getInstance (stateAfter s k)).1

end Gemini

namespace Gemini

theorem loadingMessages_length : loadingMessages.length = 6 := rfl

theorem loopTraceFrom_countWaits : ∀ n j, countWaits (loopTraceFrom j n) = n := by
  intro n
  induction n with
  | zero => intro j; rfl
  | succ n ih =>
      intro j
      simpa [loopTraceFrom, countWaits, List.filter] using ih (j + 1)

theorem loopTraceFrom_countFetches : ∀ n j, countFetches (loopTraceFrom j n) = 0 := by
  intro n
  induction n with
  | zero => intro j; rfl
  | succ n ih =>
      intro j
      simpa [loopTraceFrom, countFetches, List.filter] using ih (j + 1)

theorem loopTraceFrom_length : ∀ n j, (loopTraceFrom j n).length = 3 * n := by
  intro n
  induction n with
  | zero => intro j; rfl
  | succ n ih =>
      intro j
      simp [loopTraceFrom, ih (j + 1)]
      omega

theorem loopTraceFrom_progress :
    ∀ n j, progressMessages (loopTraceFrom j n) =
      (List.range n).map (fun i => loadingMessages.getD ((j + i) % 6) "") := by
  intro n
  induction n with
  | zero => intro j; rfl
  | succ n ih =>
      intro j
      have hhead : progressMessages (loopTraceFrom j (n + 1)) =
          loadingMessages.getD (j % 6) "" :: progressMessages (loopTraceFrom (j + 1) n) := by
        simp [loopTraceFrom, progressMessages, loadingMessages_length]
      rw [hhead, ih (j + 1), List.range_succ_eq_map]
      simp only [List.map_cons, List.map_map, Nat.add_zero]
      refine congrArg (List.cons _) (List.map_congr_left ?_)
      intro a _
      simp only [Function.comp_apply]
      have e : j + 1 + a = j + Nat.succ a := by omega
      rw [e]

theorem loopTraceFrom_getElem_poll :
    ∀ n j k, k < n → (loopTraceFrom j n)[3 * k + 2]? = some (Event.pollCall (j + k)) := by
  intro n
  induction n with
  | zero => intro j k hk; exact absurd hk (Nat.not_lt_zero k)
  | succ n ih =>
      intro j k hk
      cases k with
      | zero => simp [loopTraceFrom]
      | succ k =>
          have e : 3 * (k + 1) + 2 = (3 * k + 2) + 1 + 1 + 1 := by omega
          rw [e]
          have hk2 : k < n := by omega
          have := ih (j + 1) k hk2
          have e2 : j + 1 + k = j + (k + 1) := by omega
          rw [e2] at this
          simpa [loopTraceFrom, List.getElem?_cons_succ] using this

theorem pollLoop_run (env : Env) (ops : Nat → Operation)
    (hpoll : ∀ k, env.pollResult k = Except.ok (ops (k + 1))) :
    ∀ N j fuel, N ≤ fuel →
      (∀ k, k < N → (ops (j + k)).done = false) →
      (ops (j + N)).done = true →
      pollLoop env fuel (ops j) j = some (loopTraceFrom j N, Except.ok (ops (j + N))) := by
  intro N
  induction N with
  | zero =>
      intro j fuel _ _ hd
      rw [Nat.add_zero] at hd ⊢
      cases fuel with
      | zero => simp [pollLoop, hd, loopTraceFrom]
      | succ f => simp [pollLoop, hd, loopTraceFrom]
  | succ n ih =>
      intro j fuel hfuel hnd hd
      have h0 : (ops j).done = false := by simpa using hnd 0 (Nat.succ_pos n)
      cases fuel with
      | zero => omega
      | succ f =>
          have hf : n ≤ f := Nat.le_of_succ_le_succ hfuel
          have hnd2 : ∀ k, k < n → (ops (j + 1 + k)).done = false := by
            intro k hk
            have h1 := hnd (k + 1) (Nat.succ_lt_succ hk)
            have e : j + (k + 1) = j + 1 + k := by omega
            rwa [e] at h1
          have hd2 : (ops (j + 1 + n)).done = true := by
            have e : j + (n + 1) = j + 1 + n := by omega
            rwa [e] at hd
          have hrec := ih (j + 1) f hf hnd2 hd2
          have e2 : j + 1 + n = j + (n + 1) := by omega
          rw [e2] at hrec
          simp [pollLoop, h0, hpoll j, hrec, loopTraceFrom]

end Gemini

namespace Gemini

theorem pollLoop_events (env : Env) :
    ∀ fuel op j tr r, pollLoop env fuel op j = some (tr, r) →
      ∀ e ∈ tr, e = Event.wait 10000 ∨ (∃ m, e = Event.progress m) ∨
        ∃ k, e = Event.pollCall k := by
  intro fuel
  induction fuel with
  | zero =>
      intro op j tr r h e he
      unfold pollLoop at h
      split at h
      · simp only [Option.some.injEq, Prod.mk.injEq] at h
        rw [← h.1] at he
        exact absurd he (List.not_mem_nil e)
      · exact absurd h (by simp)
  | succ f ih =>
      intro op j tr r h e he
      unfold pollLoop at h
      split at h
      · simp only [Option.some.injEq, Prod.mk.injEq] at h
        rw [← h.1] at he
        exact absurd he (List.not_mem_nil e)
      · split at h
        · simp only [Option.some.injEq, Prod.mk.injEq] at h
          rw [← h.1] at he
          simp only [List.mem_cons, List.mem_singleton] at he
          rcases he with he | he | he | he
          · exact Or.inl he
          · exact Or.inr (Or.inl ⟨_, he⟩)
          · exact Or.inr (Or.inr ⟨_, he⟩)
          · exact absurd he (List.not_mem_nil e)
        · split at h
          · exact absurd h (by simp)
          · rename_i tr2 r2 heq
            simp only [Option.some.injEq, Prod.mk.injEq] at h
            rw [← h.1] at he
            simp only [List.mem_cons] at he
            rcases he with he | he | he | he
            · exact Or.inl he
            · exact Or.inr (Or.inl ⟨_, he⟩)
            · exact Or.inr (Or.inr ⟨_, he⟩)
            · exact ih _ _ _ _ heq e he

theorem pollLoop_no_fetch {env : Env} {fuel j : Nat} {op : Operation}
    {tr : List Event} {r : Except String Operation}
    (h : pollLoop env fuel op j = some (tr, r)) :
    ∀ u, Event.fetchCall u ∉ tr := by
  intro u hu
  rcases pollLoop_events env fuel op j tr r h _ hu with h1 | ⟨m, h1⟩ | ⟨k, h1⟩ <;>
    exact absurd h1 (by simp)

theorem pollLoop_no_submit {env : Env} {fuel j : Nat} {op : Operation}
    {tr : List Event} {r : Except String Operation}
    (h : pollLoop env fuel op j = some (tr, r)) :
    ∀ q, Event.submitCall q ∉ tr := by
  intro q hq
  rcases pollLoop_events env fuel op j tr r h _ hq with h1 | ⟨m, h1⟩ | ⟨k, h1⟩ <;>
    exact absurd h1 (by simp)

theorem countFetches_of_no_fetch {tr : List Event} (h : ∀ u, Event.fetchCall u ∉ tr) :
    countFetches tr = 0 := by
  unfold countFetches
  rw [List.length_eq_zero]
  rw [List.filter_eq_nil_iff]
  intro e he
  cases e with
  | fetchCall u => exact absurd he (h u)
  | progress m => simp
  | submitCall q => simp
  | wait ms => simp
  | pollCall k => simp

theorem stringIncludes_trans_of_infix {e : String} {s₁ s₂ : String}
    (hsub : List.IsInfix s₁.toList s₂.toList)
    (h : stringIncludes e s₂ = true) : stringIncludes e s₁ = true := by
  unfold stringIncludes at h ⊢
  rw [decide_eq_true_iff] at h ⊢
  exact List.IsInfix.trans hsub h

theorem spec_substr_infix_code_substr :
    List.IsInfix specCredentialSubstr.toList credentialSubstr.toList := by decide

theorem getInstance_snd_inst (s : ServiceState) :
    (getInstance s).2.inst = some (getInstance s).1 := by
  unfold getInstance
  cases h : s.inst with
  | none => rfl
  | some i => simpa using h

theorem getInstance_of_some {s : ServiceState} {i : Nat} (h : s.inst = some i) :
    getInstance s = (i, s) := by
  unfold getInstance
  rw [h]

theorem callResult_const (s : ServiceState) : ∀ k, callResult s k = callResult s 0 := by
  intro k
  induction k with
  | zero => rfl
  | succ k ih =>
      have h1 : (getInstance (stateAfter s k)).2.inst =
          some ((getInstance (stateAfter s k)).1) := getInstance_snd_inst _
      have h2 : callResult s (k + 1) = callResult s k := by
        show (getInstance (stateAfter s (k + 1))).1 = (getInstance (stateAfter s k)).1
        have hs : stateAfter s (k + 1) = (getInstance (stateAfter s k)).2 := rfl
        rw [hs, getInstance_of_some h1]
      rw [h2, ih]

end Gemini

namespace Gemini

theorem countWaits_append (l1 l2 : List Event) :
    countWaits (l1 ++ l2) = countWaits l1 + countWaits l2 := by
  simp [countWaits, List.filter_append]

theorem countFetches_append (l1 l2 : List Event) :
    countFetches (l1 ++ l2) = countFetches l1 + countFetches l2 := by
  simp [countFetches, List.filter_append]

theorem progressMessages_append (l1 l2 : List Event) :
    progressMessages (l1 ++ l2) = progressMessages l1 ++ progressMessages l2 := by
  simp [progressMessages, List.filterMap_append]

theorem tryBody_ok_shape {env : Env} {img : String} {fuel : Nat} {tr : List Event}
    {a : LocalArtifact} (h : tryBody env img fuel = some (tr, Except.ok a)) :
    ∃ op0 ptr opF link,
      env.submit (mkSubmitRequest img) = Except.ok op0 ∧
      pollLoop env fuel op0 0 = some (ptr, Except.ok opF) ∧
      downloadLinkOf opF = some link ∧
      (env.fetch (link ++ "&key=" ++ env.apiKey)).ok = true ∧
      a = createObjectURL (env.fetch (link ++ "&key=" ++ env.apiKey)).blob ∧
      tr = Event.submitCall (mkSubmitRequest img) :: Event.progress craftingMsg ::
           (ptr ++ [Event.progress downloadingMsg,
                    Event.fetchCall (link ++ "&key=" ++ env.apiKey)]) := by
  unfold tryBody at h
  split at h
  · simp at h
  · split at h
    · simp at h
    · simp at h
    · rename_i x1 op0 hsubmit x2 ptr opF hpoll
      split at h
      · simp at h
      · rename_i x3 link hlink
        split at h
        · rename_i hok
          simp only [Option.some.injEq, Prod.mk.injEq, Except.ok.injEq] at h
          exact ⟨op0, ptr, opF, link, hsubmit, hpoll, hlink, hok, h.2.symm, h.1.symm⟩
        · simp at h

theorem generate_ok_shape {env : Env} {img : String} {fuel : Nat} {tr : List Event}
    {a : LocalArtifact}
    (h : generateCinematicAnimation env img fuel = some (tr, Except.ok a)) :
    ∃ tr2, tryBody env img fuel = some (tr2, Except.ok a) ∧
      tr = Event.progress initializingMsg :: tr2 := by
  unfold generateCinematicAnimation at h
  split at h
  · simp at h
  · rename_i tr2 a2 heq
    simp only [Option.some.injEq, Prod.mk.injEq, Except.ok.injEq] at h
    exact ⟨tr2, by rw [heq, h.2], h.1.symm⟩
  · simp at h

theorem pollLoop_done {env : Env} {op : Operation} (hd : op.done = true)
    (fuel j : Nat) : pollLoop env fuel op j = some ([], Except.ok op) := by
  cases fuel <;> simp [pollLoop, hd]

theorem generate_of_tryBody_error {env : Env} {img : String} {fuel : Nat}
    {tr : List Event} {e : String}
    (h : tryBody env img fuel = some (tr, Except.error e)) :
    generateCinematicAnimation env img fuel =
      some (Event.progress initializingMsg :: tr, Except.error (catchMap e)) := by
  unfold generateCinematicAnimation
  rw [h]

/-- Claim C1 (amended): every error raised inside the try block of
generateCinematicAnimation (by the submission or a poll call) whose message
includes the substring "Requested entity was not found" is remapped to the
distinguished API_KEY_RESET error, regardless of any other content in the
message. -/
theorem credential_remap_amended {env : Env} {img : String} {fuel : Nat}
    {tr : List Event} {e : String}
    (h : tryBody env img fuel = some (tr, Except.error e))
    (hc : stringIncludes e credentialSubstr = true) :
    generateCinematicAnimation env img fuel =
      some (Event.progress initializingMsg :: tr, Except.error apiKeyResetMsg) := by
  rw [generate_of_tryBody_error h]
  simp [catchMap, hc]

/-- Environment whose submission call fails with a message that contains the
code substring "Requested entity was not found". -/
def envCredExample : Env :=
  { apiKey := "K"
    submit := fun _ => Except.error "Requested entity was not found: tenant"
    pollResult := fun _ => Except.error "unused"
    fetch := fun _ => { ok := false, blob := [] } }

/-- Witness for credential_remap_amended at a concrete environment. -/
theorem credential_remap_amended_witness :
    generateCinematicAnimation envCredExample "payload" 0 =
      some ([Event.progress initializingMsg,
             Event.submitCall (mkSubmitRequest "payload")],
            Except.error apiKeyResetMsg) :=
  credential_remap_amended (by rfl) (by decide)

/-- Environment whose submission call fails with exactly the message
"entity was not found", the substring named by the specification. -/
def envCredSpecOnly : Env :=
  { apiKey := "K"
    submit := fun _ => Except.error "entity was not found"
    pollResult := fun _ => Except.error "unused"
    fetch := fun _ => { ok := false, blob := [] } }

/-- Claim C1 counterexample: an upstream error whose message contains the
substring "entity was not found" named by the claim is NOT remapped to the
API_KEY_RESET outcome; it propagates verbatim, because the code matches the
longer substring "Requested entity was not found". -/
theorem credential_remap_counterexample :
    stringIncludes "entity was not found" specCredentialSubstr = true ∧
    generateCinematicAnimation envCredSpecOnly "payload" 0 =
      some ([Event.progress initializingMsg,
             Event.submitCall (mkSubmitRequest "payload")],
            Except.error "entity was not found") ∧
    "entity was not found" ≠ apiKeyResetMsg :=
  ⟨by decide, by rfl, by decide⟩

/-- Claim C6: every error raised by the submission or a poll call (modelled as
any raw error outcome of the try block) whose message does not contain the
credential-rejection substring "entity was not found" is propagated verbatim,
with the same unmodified message. -/
theorem upstream_verbatim {env : Env} {img : String} {fuel : Nat}
    {tr : List Event} {e : String}
    (h : tryBody env img fuel = some (tr, Except.error e))
    (hn : stringIncludes e specCredentialSubstr = false) :
    generateCinematicAnimation env img fuel =
      some (Event.progress initializingMsg :: tr, Except.error e) := by
  rw [generate_of_tryBody_error h]
  have hcode : stringIncludes e credentialSubstr = false := by
    cases hx : stringIncludes e credentialSubstr with
    | false => rfl
    | true =>
        have ht := stringIncludes_trans_of_infix spec_substr_infix_code_substr hx
        simp [ht] at hn
  simp [catchMap, hcode]

/-- Environment whose submission call fails with an unrelated message. -/
def envUpstreamExample : Env :=
  { apiKey := "K"
    submit := fun _ => Except.error "internal server error 500"
    pollResult := fun _ => Except.error "unused"
    fetch := fun _ => { ok := false, blob := [] } }

/-- Witness for upstream_verbatim at a concrete environment. -/
theorem upstream_verbatim_witness :
    generateCinematicAnimation envUpstreamExample "payload" 0 =
      some ([Event.progress initializingMsg,
             Event.submitCall (mkSubmitRequest "payload")],
            Except.error "internal server error 500") :=
  upstream_verbatim (by rfl) (by decide)

/-- Claim C2 (amended): for a run where the submission returns a not-done
handle, one poll returns done with a result URI, and the download succeeds,
generateCinematicAnimation returns a local artifact wrapping the downloaded
body, and the progress callback is invoked with exactly this sequence of four
strings: "Initializing video generation engine...", "Crafting visual physics
and hair dynamics...", one cyclic flavor message, "Downloading final
high-fidelity export...". -/
theorem end_to_end_amended {env : Env} {img : String} {op0 opD : Operation}
    {uri : String} {body : List Nat} {fuel : Nat}
    (hs : env.submit (mkSubmitRequest img) = Except.ok op0)
    (h0 : op0.done = false)
    (hp : env.pollResult 0 = Except.ok opD)
    (hd : opD.done = true)
    (hl : downloadLinkOf opD = some uri)
    (hf : env.fetch (uri ++ "&key=" ++ env.apiKey) = { ok := true, blob := body })
    (hfuel : 1 ≤ fuel) :
    generateCinematicAnimation env img fuel =
      some ([Event.progress initializingMsg,
             Event.submitCall (mkSubmitRequest img),
             Event.progress craftingMsg,
             Event.wait 10000,
             Event.progress (loadingMessages.getD 0 ""),
             Event.pollCall 0,
             Event.progress downloadingMsg,
             Event.fetchCall (uri ++ "&key=" ++ env.apiKey)],
            Except.ok (createObjectURL body)) ∧
    progressMessages
        [Event.progress initializingMsg,
         Event.submitCall (mkSubmitRequest img),
         Event.progress craftingMsg,
         Event.wait 10000,
         Event.progress (loadingMessages.getD 0 ""),
         Event.pollCall 0,
         Event.progress downloadingMsg,
         Event.fetchCall (uri ++ "&key=" ++ env.apiKey)] =
      [initializingMsg, craftingMsg, loadingMessages.getD 0 "", downloadingMsg] := by
  cases fuel with
  | zero => omega
  | succ f =>
      have hloop : pollLoop env (f + 1) op0 0 =
          some ([Event.wait 10000, Event.progress (loadingMessages.getD 0 ""),
                 Event.pollCall 0], Except.ok opD) := by
        simp [pollLoop, h0, hp, pollLoop_done hd, loadingMessages_length]
      have htry : tryBody env img (f + 1) =
          some ([Event.submitCall (mkSubmitRequest img),
                 Event.progress craftingMsg,
                 Event.wait 10000,
                 Event.progress (loadingMessages.getD 0 ""),
                 Event.pollCall 0,
                 Event.progress downloadingMsg,
                 Event.fetchCall (uri ++ "&key=" ++ env.apiKey)],
                Except.ok (createObjectURL body)) := by
        simp [tryBody, hs, hloop, hl, hf]
      constructor
      · unfold generateCinematicAnimation
        rw [htry]
      · simp [progressMessages]

/-- Environment for the end-to-end scenario: submission returns a not-done
handle, the first poll returns done with a result URI, the download succeeds
with body bytes. -/
def opNotDone : Operation := { done := false, response := none }

/-- Completed operation carrying the scenario result URI. -/
def opDoneScenario : Operation :=
  { done := true
    response := some ⟨some [⟨some ⟨some "https://x/video123"⟩⟩]⟩ }

def envScenario : Env :=
  { apiKey := "K"
    submit := fun _ => Except.ok opNotDone
    pollResult := fun _ => Except.ok opDoneScenario
    fetch := fun _ => { ok := true, blob := [7, 7] } }

/-- Witness for end_to_end_amended at a concrete environment. -/
theorem end_to_end_amended_witness :
    generateCinematicAnimation envScenario "img" 1 =
      some ([Event.progress initializingMsg,
             Event.submitCall (mkSubmitRequest "img"),
             Event.progress craftingMsg,
             Event.wait 10000,
             Event.progress (loadingMessages.getD 0 ""),
             Event.pollCall 0,
             Event.progress downloadingMsg,
             Event.fetchCall ("https://x/video123" ++ "&key=" ++ envScenario.apiKey)],
            Except.ok (createObjectURL [7, 7])) ∧
    progressMessages
        [Event.progress initializingMsg,
         Event.submitCall (mkSubmitRequest "img"),
         Event.progress craftingMsg,
         Event.wait 10000,
         Event.progress (loadingMessages.getD 0 ""),
         Event.pollCall 0,
         Event.progress downloadingMsg,
         Event.fetchCall ("https://x/video123" ++ "&key=" ++ envScenario.apiKey)] =
      [initializingMsg, craftingMsg, loadingMessages.getD 0 "", downloadingMsg] :=
  @end_to_end_amended envScenario "img" opNotDone opDoneScenario "https://x/video123" [7, 7] 1
    (by rfl) (by rfl) (by rfl) (by rfl) (by rfl) (by rfl) (by decide)

/-- Trace of the end-to-end scenario run. -/
def trScenario : List Event :=
  [Event.progress initializingMsg,
   Event.submitCall (mkSubmitRequest "img"),
   Event.progress craftingMsg,
   Event.wait 10000,
   Event.progress (loadingMessages.getD 0 ""),
   Event.pollCall 0,
   Event.progress downloadingMsg,
   Event.fetchCall "https://x/video123&key=K"]

/-- Claim C2 counterexample: in the end-to-end scenario the progress callback
receives four strings, not the three the claim states: the message "Crafting
visual physics and hair dynamics..." is also emitted, between the
initializing message and the flavor message, so the delivered sequence is not
the claimed three-element sequence and has length 4, not 3. -/
theorem end_to_end_counterexample :
    generateCinematicAnimation envScenario "img" 1 =
      some (trScenario, Except.ok (createObjectURL [7, 7])) ∧
    progressMessages trScenario =
      [initializingMsg, craftingMsg, loadingMessages.getD 0 "", downloadingMsg] ∧
    progressMessages trScenario ≠
      [initializingMsg, loadingMessages.getD 0 "", downloadingMsg] ∧
    (progressMessages trScenario).length = 4 :=
  ⟨by rfl, by rfl, by decide, by rfl⟩

/-- Claim C3: for every execution in which the operation reports not-done for
N observations and then done, the poll loop emits exactly the trace of N
iterations: N fixed 10-second waits, flavor messages whose index advances by
exactly 1 per poll wrapping modulo 6 (poll k emits message k mod 6, so poll 0
and poll 6 emit message 0), and for N = 0 (done at the first observation) the
loop contributes no events at all; in the full run the number of wait events
is exactly N whatever the download outcome. -/
theorem poll_wait_count {env : Env} {img : String} (ops : Nat → Operation)
    {N fuel : Nat}
    (hs : env.submit (mkSubmitRequest img) = Except.ok (ops 0))
    (hpoll : ∀ k, env.pollResult k = Except.ok (ops (k + 1)))
    (hnd : ∀ k, k < N → (ops k).done = false)
    (hd : (ops N).done = true)
    (hfuel : N ≤ fuel) :
    pollLoop env fuel (ops 0) 0 = some (loopTraceFrom 0 N, Except.ok (ops N)) ∧
    countWaits (loopTraceFrom 0 N) = N ∧
    progressMessages (loopTraceFrom 0 N) =
      (List.range N).map (fun k => loadingMessages.getD (k % 6) "") ∧
    (N = 0 → loopTraceFrom 0 N = []) ∧
    (∀ tr r, generateCinematicAnimation env img fuel = some (tr, r) →
      countWaits tr = N) := by
  have hnd0 : ∀ k, k < N → (ops (0 + k)).done = false := by
    intro k hk
    rw [Nat.zero_add]
    exact hnd k hk
  have hd0 : (ops (0 + N)).done = true := by
    rw [Nat.zero_add]
    exact hd
  have hrun := pollLoop_run env ops hpoll N 0 fuel hfuel hnd0 hd0
  rw [Nat.zero_add] at hrun
  have hW := loopTraceFrom_countWaits N 0
  refine ⟨hrun, hW, ?_, ?_, ?_⟩
  · have hpr := loopTraceFrom_progress N 0
    simpa using hpr
  · intro hN
    subst hN
    rfl
  · intro tr r h
    cases hdl : downloadLinkOf (ops N) with
    | none =>
        have htry : tryBody env img fuel =
            some (Event.submitCall (mkSubmitRequest img) :: Event.progress craftingMsg ::
                  loopTraceFrom 0 N, Except.error missingArtifactMsg) := by
          simp [tryBody, hs, hrun, hdl]
        have hgen := generate_of_tryBody_error htry
        rw [hgen] at h
        simp only [Option.some.injEq, Prod.mk.injEq] at h
        rw [← h.1]
        simpa [countWaits, List.filter] using hW
    | some link =>
        cases hok : (env.fetch (link ++ "&key=" ++ env.apiKey)).ok with
        | false =>
            have htry : tryBody env img fuel =
                some (Event.submitCall (mkSubmitRequest img) :: Event.progress craftingMsg ::
                      (loopTraceFrom 0 N ++
                       [Event.progress downloadingMsg,
                        Event.fetchCall (link ++ "&key=" ++ env.apiKey)]),
                      Except.error downloadFailedMsg) := by
              simp [tryBody, hs, hrun, hdl, hok]
            have hgen := generate_of_tryBody_error htry
            rw [hgen] at h
            simp only [Option.some.injEq, Prod.mk.injEq] at h
            rw [← h.1]
            simpa [countWaits, List.filter, List.filter_append] using hW
        | true =>
            have htry : tryBody env img fuel =
                some (Event.submitCall (mkSubmitRequest img) :: Event.progress craftingMsg ::
                      (loopTraceFrom 0 N ++
                       [Event.progress downloadingMsg,
                        Event.fetchCall (link ++ "&key=" ++ env.apiKey)]),
                      Except.ok (createObjectURL
                        (env.fetch (link ++ "&key=" ++ env.apiKey)).blob)) := by
              simp [tryBody, hs, hrun, hdl, hok]
            have hgen : generateCinematicAnimation env img fuel =
                some (Event.progress initializingMsg ::
                      Event.submitCall (mkSubmitRequest img) :: Event.progress craftingMsg ::
                      (loopTraceFrom 0 N ++
                       [Event.progress downloadingMsg,
                        Event.fetchCall (link ++ "&key=" ++ env.apiKey)]),
                      Except.ok (createObjectURL
                        (env.fetch (link ++ "&key=" ++ env.apiKey)).blob)) := by
              unfold generateCinematicAnimation
              rw [htry]
            rw [hgen] at h
            simp only [Option.some.injEq, Prod.mk.injEq] at h
            rw [← h.1]
            simpa [countWaits, List.filter, List.filter_append] using hW

/-- Operation sequence that is not done for the first seven observations. -/
def opsWrap : Nat → Operation := fun k =>
  if k < 7 then { done := false, response := none } else { done := true, response := none }

/-- Environment realizing the opsWrap sequence. -/
def envWrap : Env :=
  { apiKey := "K"
    submit := fun _ => Except.ok (opsWrap 0)
    pollResult := fun k => Except.ok (opsWrap (k + 1))
    fetch := fun _ => { ok := false, blob := [] } }

/-- Trace of the envWrap run of generateCinematicAnimation. -/
def trWrap : List Event :=
  Event.progress initializingMsg :: Event.submitCall (mkSubmitRequest "img") ::
  Event.progress craftingMsg :: loopTraceFrom 0 7

/-- Witness for poll_wait_count at a concrete environment with seven polls,
exercising the modulo-6 wrap of the flavor messages. -/
theorem poll_wait_count_witness :
    pollLoop envWrap 7 (opsWrap 0) 0 = some (loopTraceFrom 0 7, Except.ok (opsWrap 7)) ∧
    countWaits (loopTraceFrom 0 7) = 7 ∧
    progressMessages (loopTraceFrom 0 7) =
      (List.range 7).map (fun k => loadingMessages.getD (k % 6) "") ∧
    countWaits trWrap = 7 := by
  have h := @poll_wait_count envWrap "img" opsWrap 7 7
    (by rfl) (fun k => rfl) (by decide) (by rfl) (by decide)
  exact ⟨h.1, h.2.1, h.2.2.1,
    h.2.2.2.2 trWrap (Except.error missingArtifactMsg) (by rfl)⟩

/-- Claim C4: when the poll loop completes with a done operation whose
optional-chained video URI is absent (empty result list or first generated
item without a playable reference), generateCinematicAnimation terminates
with exactly the missing-artifact error (not a remapped or other upstream
message) and its trace contains no download fetch event. -/
theorem missing_artifact {env : Env} {img : String} {fuel : Nat}
    {op0 opF : Operation} {ptr : List Event}
    (hs : env.submit (mkSubmitRequest img) = Except.ok op0)
    (hp : pollLoop env fuel op0 0 = some (ptr, Except.ok opF))
    (hl : downloadLinkOf opF = none) :
    generateCinematicAnimation env img fuel =
      some (Event.progress initializingMsg :: Event.submitCall (mkSubmitRequest img) ::
            Event.progress craftingMsg :: ptr, Except.error missingArtifactMsg) ∧
    countFetches
      (Event.progress initializingMsg :: Event.submitCall (mkSubmitRequest img) ::
       Event.progress craftingMsg :: ptr) = 0 := by
  have htry : tryBody env img fuel =
      some (Event.submitCall (mkSubmitRequest img) :: Event.progress craftingMsg :: ptr,
            Except.error missingArtifactMsg) := by
    simp [tryBody, hs, hp, hl]
  constructor
  · have hgen := generate_of_tryBody_error htry
    have hcm : catchMap missingArtifactMsg = missingArtifactMsg := by decide
    rwa [hcm] at hgen
  · have hz : countFetches ptr = 0 := countFetches_of_no_fetch (pollLoop_no_fetch hp)
    simpa [countFetches, List.filter] using hz

/-- Completed operation carrying no response payload at all. -/
def opDoneNoUri : Operation := { done := true, response := none }

/-- Environment whose submission immediately returns a done operation without
any artifact reference. -/
def envMissing : Env :=
  { apiKey := "K"
    submit := fun _ => Except.ok opDoneNoUri
    pollResult := fun _ => Except.error "unused"
    fetch := fun _ => { ok := true, blob := [] } }

/-- Witness for missing_artifact at a concrete environment. -/
theorem missing_artifact_witness :
    generateCinematicAnimation envMissing "img" 0 =
      some ([Event.progress initializingMsg, Event.submitCall (mkSubmitRequest "img"),
             Event.progress craftingMsg], Except.error missingArtifactMsg) ∧
    countFetches
      [Event.progress initializingMsg, Event.submitCall (mkSubmitRequest "img"),
       Event.progress craftingMsg] = 0 :=
  @missing_artifact envMissing "img" 0 opDoneNoUri opDoneNoUri []
    (by rfl) (by rfl) (by rfl)

/-- Claim C5: when the artifact reference resolves but the binary download
responds with a non-success status, generateCinematicAnimation terminates
with exactly the download-failed error, returns no local artifact, and the
failure is terminal: the trace contains exactly one fetch event, so the fetch
is not retried. -/
theorem download_failed {env : Env} {img : String} {fuel : Nat}
    {op0 opF : Operation} {ptr : List Event} {link : String}
    (hs : env.submit (mkSubmitRequest img) = Except.ok op0)
    (hp : pollLoop env fuel op0 0 = some (ptr, Except.ok opF))
    (hl : downloadLinkOf opF = some link)
    (hfail : (env.fetch (link ++ "&key=" ++ env.apiKey)).ok = false) :
    generateCinematicAnimation env img fuel =
      some (Event.progress initializingMsg :: Event.submitCall (mkSubmitRequest img) ::
            Event.progress craftingMsg ::
            (ptr ++ [Event.progress downloadingMsg,
                     Event.fetchCall (link ++ "&key=" ++ env.apiKey)]),
            Except.error downloadFailedMsg) ∧
    countFetches
      (Event.progress initializingMsg :: Event.submitCall (mkSubmitRequest img) ::
       Event.progress craftingMsg ::
       (ptr ++ [Event.progress downloadingMsg,
                Event.fetchCall (link ++ "&key=" ++ env.apiKey)])) = 1 := by
  have htry : tryBody env img fuel =
      some (Event.submitCall (mkSubmitRequest img) :: Event.progress craftingMsg ::
            (ptr ++ [Event.progress downloadingMsg,
                     Event.fetchCall (link ++ "&key=" ++ env.apiKey)]),
            Except.error downloadFailedMsg) := by
    simp [tryBody, hs, hp, hl, hfail]
  constructor
  · have hgen := generate_of_tryBody_error htry
    have hcm : catchMap downloadFailedMsg = downloadFailedMsg := by decide
    rwa [hcm] at hgen
  · have hz : countFetches ptr = 0 := countFetches_of_no_fetch (pollLoop_no_fetch hp)
    simpa [countFetches, List.filter, List.filter_append] using hz

/-- Environment with a resolvable artifact URI but a failing download. -/
def envDownloadFail : Env :=
  { apiKey := "K"
    submit := fun _ => Except.ok opDoneScenario
    pollResult := fun _ => Except.error "unused"
    fetch := fun _ => { ok := false, blob := [] } }

/-- Witness for download_failed at a concrete environment. -/
theorem download_failed_witness :
    generateCinematicAnimation envDownloadFail "img" 0 =
      some (Event.progress initializingMsg :: Event.submitCall (mkSubmitRequest "img") ::
            Event.progress craftingMsg ::
            ([] ++ [Event.progress downloadingMsg,
                    Event.fetchCall ("https://x/video123" ++ "&key=" ++ envDownloadFail.apiKey)]),
            Except.error downloadFailedMsg) ∧
    countFetches
      (Event.progress initializingMsg :: Event.submitCall (mkSubmitRequest "img") ::
       Event.progress craftingMsg ::
       ([] ++ [Event.progress downloadingMsg,
               Event.fetchCall ("https://x/video123" ++ "&key=" ++ envDownloadFail.apiKey)])) = 1 :=
  @download_failed envDownloadFail "img" 0 opDoneScenario opDoneScenario [] "https://x/video123"
    (by rfl) (by rfl) (by rfl) (by rfl)

/-- Full event trace of a successful run with N not-done polls and download
URL u. -/
def fullTrace (img : String) (N : Nat) (u : String) : List Event :=
  Event.progress initializingMsg :: Event.submitCall (mkSubmitRequest img) ::
  Event.progress craftingMsg ::
  (loopTraceFrom 0 N ++ [Event.progress downloadingMsg, Event.fetchCall u])

/-- Operation sequence that is not done at submission and done at the first
poll, carrying the scenario result URI. -/
def opsOne : Nat → Operation := fun k => if k = 0 then opNotDone else opDoneScenario

/-- Environment realizing the opsOne sequence with a succeeding download. -/
def envOrdering : Env :=
  { apiKey := "K"
    submit := fun _ => Except.ok (opsOne 0)
    pollResult := fun k => Except.ok (opsOne (k + 1))
    fetch := fun _ => { ok := true, blob := [7, 7] } }

theorem generate_trace_shape {env : Env} {img : String} {fuel : Nat}
    {tr : List Event} {r : Except String LocalArtifact}
    (h : generateCinematicAnimation env img fuel = some (tr, r)) :
    ∃ tr2 r2, tryBody env img fuel = some (tr2, r2) ∧
      tr = Event.progress initializingMsg :: tr2 := by
  unfold generateCinematicAnimation at h
  split at h
  · simp at h
  · rename_i tr2 a2 heq
    simp only [Option.some.injEq, Prod.mk.injEq] at h
    exact ⟨tr2, Except.ok a2, heq, h.1.symm⟩
  · rename_i tr2 e2 heq
    simp only [Option.some.injEq, Prod.mk.injEq] at h
    exact ⟨tr2, Except.error e2, heq, h.1.symm⟩

theorem tryBody_submit_events {env : Env} {img : String} {fuel : Nat}
    {tr : List Event} {r : Except String LocalArtifact}
    (h : tryBody env img fuel = some (tr, r)) :
    Event.submitCall (mkSubmitRequest img) ∈ tr ∧
    ∀ q, Event.submitCall q ∈ tr → q = mkSubmitRequest img := by
  unfold tryBody at h
  split at h
  · simp only [Option.some.injEq, Prod.mk.injEq] at h
    rw [← h.1]
    refine ⟨by simp, ?_⟩
    intro q hq
    simpa using hq
  · split at h
    · simp at h
    · rename_i x1 op0 hsub x2 ptr e hploop
      simp only [Option.some.injEq, Prod.mk.injEq] at h
      rw [← h.1]
      refine ⟨by simp, ?_⟩
      intro q hq
      simp only [List.mem_cons] at hq
      rcases hq with h1 | h1 | h1
      · simpa using h1
      · simp at h1
      · exact absurd h1 (pollLoop_no_submit hploop q)
    · rename_i x1 op0 hsub x2 ptr opF hploop
      split at h
      · simp only [Option.some.injEq, Prod.mk.injEq] at h
        rw [← h.1]
        refine ⟨by simp, ?_⟩
        intro q hq
        simp only [List.mem_cons] at hq
        rcases hq with h1 | h1 | h1
        · simpa using h1
        · simp at h1
        · exact absurd h1 (pollLoop_no_submit hploop q)
      · rename_i x3 link hlink
        simp only [Option.some.injEq, Prod.mk.injEq] at h
        rw [← h.1]
        refine ⟨by simp, ?_⟩
        intro q hq
        simp only [List.mem_cons] at hq
        rcases hq with h1 | h1 | h1
        · simpa using h1
        · simp at h1
        · rw [List.mem_append] at h1
          rcases h1 with h1 | h1
          · exact absurd h1 (pollLoop_no_submit hploop q)
          · simp at h1

/-- Claim C9: on every run the trace contains the submission event carrying
exactly mkSubmitRequest img and no other submission event, and that request
declares the media type image/png and the fixed prompt, model id and config
(1 video, 1080p, 16:9) — constants independent of the caller's payload,
which is passed through unchanged as the image bytes. -/
theorem request_constants {env : Env} {img : String} {fuel : Nat}
    {tr : List Event} {r : Except String LocalArtifact}
    (h : generateCinematicAnimation env img fuel = some (tr, r)) :
    Event.submitCall (mkSubmitRequest img) ∈ tr ∧
    (∀ q, Event.submitCall q ∈ tr → q = mkSubmitRequest img) ∧
    (mkSubmitRequest img).mimeType = "image/png" ∧
    (mkSubmitRequest img).prompt = cinematicPrompt ∧
    (mkSubmitRequest img).model = "veo-3.1-fast-generate-preview" ∧
    (mkSubmitRequest img).numberOfVideos = 1 ∧
    (mkSubmitRequest img).resolution = "1080p" ∧
    (mkSubmitRequest img).aspectRatio = "16:9" ∧
    (mkSubmitRequest img).imageBytes = img := by
  obtain ⟨tr2, r2, htry, htr⟩ := generate_trace_shape h
  obtain ⟨hmem, huniq⟩ := tryBody_submit_events htry
  subst htr
  refine ⟨List.mem_cons_of_mem _ hmem, ?_, rfl, rfl, rfl, rfl, rfl, rfl, rfl⟩
  intro q hq
  rcases List.mem_cons.mp hq with h1 | h1
  · exact absurd h1 (by simp)
  · exact huniq q h1

/-- Witness for request_constants at a concrete run. -/
theorem request_constants_witness :
    Event.submitCall (mkSubmitRequest "payload") ∈
      [Event.progress initializingMsg, Event.submitCall (mkSubmitRequest "payload")] ∧
    (mkSubmitRequest "payload").mimeType = "image/png" ∧
    (mkSubmitRequest "payload").prompt = cinematicPrompt ∧
    (mkSubmitRequest "payload").model = "veo-3.1-fast-generate-preview" ∧
    (mkSubmitRequest "payload").numberOfVideos = 1 ∧
    (mkSubmitRequest "payload").resolution = "1080p" ∧
    (mkSubmitRequest "payload").aspectRatio = "16:9" ∧
    (mkSubmitRequest "payload").imageBytes = "payload" := by
  have h := @request_constants envCredSpecOnly "payload" 0
    [Event.progress initializingMsg, Event.submitCall (mkSubmitRequest "payload")]
    (Except.error "entity was not found") (by rfl)
  exact ⟨h.1, h.2.2.1, h.2.2.2.1, h.2.2.2.2.1, h.2.2.2.2.2.1,
    h.2.2.2.2.2.2.1, h.2.2.2.2.2.2.2.1, h.2.2.2.2.2.2.2.2⟩

/-- Claim C10: GeminiVideoService.getInstance is idempotent: starting from
any singleton state, every call returns the same instance, so the results of
any two calls are equal. -/
theorem getInstance_idempotent (s : ServiceState) (k l : Nat) :
    callResult s k = callResult s l := by
  rw [callResult_const s k, callResult_const s l]

theorem pollLoop_poll_positions (env : Env) :
    ∀ fuel op j tr r, pollLoop env fuel op j = some (tr, r) →
      ∀ i k, tr[i]? = some (Event.pollCall k) → j ≤ k ∧ i = 3 * (k - j) + 2 := by
  intro fuel
  induction fuel with
  | zero =>
      intro op j tr r h i k hi
      unfold pollLoop at h
      split at h
      · simp only [Option.some.injEq, Prod.mk.injEq] at h
        rw [← h.1] at hi
        simp at hi
      · simp at h
  | succ f ih =>
      intro op j tr r h i k hi
      unfold pollLoop at h
      split at h
      · simp only [Option.some.injEq, Prod.mk.injEq] at h
        rw [← h.1] at hi
        simp at hi
      · split at h
        · simp only [Option.some.injEq, Prod.mk.injEq] at h
          rw [← h.1] at hi
          cases i with
          | zero => simp at hi
          | succ i =>
              cases i with
              | zero => simp at hi
              | succ i =>
                  cases i with
                  | zero =>
                      simp at hi
                      omega
                  | succ n => simp at hi
        · split at h
          · simp at h
          · rename_i x0 op2 hres x2 tr2 r2 heq
            simp only [Option.some.injEq, Prod.mk.injEq] at h
            rw [← h.1] at hi
            cases i with
            | zero => simp at hi
            | succ i =>
                cases i with
                | zero => simp at hi
                | succ i =>
                    cases i with
                    | zero =>
                        simp at hi
                        omega
                    | succ n =>
                        simp only [List.getElem?_cons_succ] at hi
                        have hrec := ih op2 (j + 1) tr2 r2 heq n k hi
                        omega

theorem tryBody_shape {env : Env} {img : String} {fuel : Nat} {tr : List Event}
    {r : Except String LocalArtifact} (h : tryBody env img fuel = some (tr, r)) :
    (∃ e, env.submit (mkSubmitRequest img) = Except.error e ∧
      tr = [Event.submitCall (mkSubmitRequest img)]) ∨
    ∃ op0 ptr pres rest,
      env.submit (mkSubmitRequest img) = Except.ok op0 ∧
      pollLoop env fuel op0 0 = some (ptr, pres) ∧
      tr = Event.submitCall (mkSubmitRequest img) :: Event.progress craftingMsg ::
        (ptr ++ rest) ∧
      (rest = [] ∨ ∃ u, rest = [Event.progress downloadingMsg, Event.fetchCall u]) := by
  unfold tryBody at h
  split at h
  · rename_i e heq
    simp only [Option.some.injEq, Prod.mk.injEq] at h
    exact Or.inl ⟨e, heq, h.1.symm⟩
  · split at h
    · simp at h
    · rename_i x1 op0 hsub x2 ptr e hploop
      simp only [Option.some.injEq, Prod.mk.injEq] at h
      refine Or.inr ⟨op0, ptr, Except.error e, [], hsub, hploop, ?_, Or.inl rfl⟩
      rw [List.append_nil]
      exact h.1.symm
    · rename_i x1 op0 hsub x2 ptr opF hploop
      split at h
      · simp only [Option.some.injEq, Prod.mk.injEq] at h
        refine Or.inr ⟨op0, ptr, Except.ok opF, [], hsub, hploop, ?_, Or.inl rfl⟩
        rw [List.append_nil]
        exact h.1.symm
      · rename_i x3 link hlink
        simp only [Option.some.injEq, Prod.mk.injEq] at h
        exact Or.inr ⟨op0, ptr, Except.ok opF,
          [Event.progress downloadingMsg, Event.fetchCall (link ++ "&key=" ++ env.apiKey)],
          hsub, hploop, h.1.symm, Or.inr ⟨link ++ "&key=" ++ env.apiKey, rfl⟩⟩

/-- Claim C7: in every completed execution of generateCinematicAnimation the
submission event sits at trace index 1; every poll k sits exactly at index
3k+5, so the submission strictly precedes the first poll and poll positions
grow with their ordinals (every poll strictly follows the prior poll and its
response); every fetch event strictly follows every poll event, in particular
the final done poll; and on the success path the trace contains exactly one
fetch of the artifact binary content. -/
theorem effect_ordering {env : Env} {img : String} {fuel : Nat}
    {tr : List Event} {r : Except String LocalArtifact}
    (h : generateCinematicAnimation env img fuel = some (tr, r)) :
    tr[1]? = some (Event.submitCall (mkSubmitRequest img)) ∧
    (∀ (i k : Nat), tr[i]? = some (Event.pollCall k) → i = 3 * k + 5 ∧ 1 < i) ∧
    (∀ (i k i2 k2 : Nat), tr[i]? = some (Event.pollCall k) →
      tr[i2]? = some (Event.pollCall k2) → k < k2 → i < i2) ∧
    (∀ (i : Nat) (u : String) (j k : Nat), tr[i]? = some (Event.fetchCall u) →
      tr[j]? = some (Event.pollCall k) → j < i) ∧
    (∀ a, r = Except.ok a → countFetches tr = 1) := by
  have countF : ∀ a, r = Except.ok a → countFetches tr = 1 := by
    intro a ha
    subst ha
    obtain ⟨tr2, htry, htr⟩ := generate_ok_shape h
    obtain ⟨op0, ptr, opF, link, hs2, hp2, hl2, hok2, ha2, htr2⟩ := tryBody_ok_shape htry
    rw [htr2] at htr
    subst htr
    have hz : countFetches ptr = 0 := countFetches_of_no_fetch (pollLoop_no_fetch hp2)
    simpa [countFetches, List.filter, List.filter_append] using hz
  obtain ⟨tr2, r2, htry, htr⟩ := generate_trace_shape h
  rcases tryBody_shape htry with ⟨e, hsub, htr2⟩ |
    ⟨op0, ptr, pres, rest, hsub, hploop, htr2, hrest⟩
  · rw [htr2] at htr
    subst htr
    have hnp : ∀ (i k : Nat),
        ¬ (([Event.progress initializingMsg,
             Event.submitCall (mkSubmitRequest img)] : List Event)[i]? =
           some (Event.pollCall k)) := by
      intro i k hi
      cases i with
      | zero => simp at hi
      | succ i =>
          cases i with
          | zero => simp at hi
          | succ i => simp at hi
    refine ⟨by simp, ?_, ?_, ?_, countF⟩
    · intro i k hi
      exact absurd hi (hnp i k)
    · intro i k i2 k2 hi hi2 hkk
      exact absurd hi (hnp i k)
    · intro i u j k hif hj
      exact absurd hj (hnp j k)
  · rw [htr2] at htr
    subst htr
    have hplen : ∀ (n k : Nat), ptr[n]? = some (Event.pollCall k) → n = 3 * k + 2 := by
      intro n k hn
      have hpp := pollLoop_poll_positions env fuel op0 0 ptr pres hploop n k hn
      omega
    have hpos : ∀ (i k : Nat),
        (Event.progress initializingMsg :: Event.submitCall (mkSubmitRequest img) ::
         Event.progress craftingMsg :: (ptr ++ rest))[i]? = some (Event.pollCall k) →
        i = 3 * k + 5 ∧ i < ptr.length + 3 := by
      intro i k hi
      cases i with
      | zero => simp at hi
      | succ i =>
          cases i with
          | zero => simp at hi
          | succ i =>
              cases i with
              | zero => simp at hi
              | succ n =>
                  simp only [List.getElem?_cons_succ] at hi
                  rcases Nat.lt_or_ge n ptr.length with hlt | hge
                  · rw [List.getElem?_append_left hlt] at hi
                    have := hplen n k hi
                    omega
                  · rw [List.getElem?_append_right hge] at hi
                    rcases hrest with hre | ⟨u, hre⟩
                    · subst hre
                      simp at hi
                    · subst hre
                      have h2 : ∀ (m : Nat), (([Event.progress downloadingMsg,
                          Event.fetchCall u] : List Event))[m]? ≠
                          some (Event.pollCall k) := by
                        intro m
                        cases m with
                        | zero => simp
                        | succ m =>
                            cases m with
                            | zero => simp
                            | succ m => simp
                      exact absurd hi (h2 (n - ptr.length))
    have hfpos : ∀ (i : Nat) (u : String),
        (Event.progress initializingMsg :: Event.submitCall (mkSubmitRequest img) ::
         Event.progress craftingMsg :: (ptr ++ rest))[i]? = some (Event.fetchCall u) →
        ptr.length + 3 ≤ i := by
      intro i u hi
      cases i with
      | zero => simp at hi
      | succ i =>
          cases i with
          | zero => simp at hi
          | succ i =>
              cases i with
              | zero => simp at hi
              | succ n =>
                  simp only [List.getElem?_cons_succ] at hi
                  rcases Nat.lt_or_ge n ptr.length with hlt | hge
                  · rw [List.getElem?_append_left hlt] at hi
                    have hm := List.getElem?_mem hi
                    exact absurd hm (pollLoop_no_fetch hploop u)
                  · omega
    refine ⟨by simp, ?_, ?_, ?_, countF⟩
    · intro i k hi
      have := hpos i k hi
      omega
    · intro i k i2 k2 hi hi2 hkk
      have h1 := hpos i k hi
      have h2 := hpos i2 k2 hi2
      omega
    · intro i u j k hif hj
      have h1 := hfpos i u hif
      have h2 := hpos j k hj
      omega

/-- Witness for effect_ordering at a concrete run with one poll. -/
theorem effect_ordering_witness :
    (fullTrace "img" 1 ("https://x/video123" ++ "&key=" ++ envOrdering.apiKey))[1]? =
      some (Event.submitCall (mkSubmitRequest "img")) ∧
    (5 : Nat) = 3 * 0 + 5 ∧ (1 : Nat) < 5 ∧ (5 : Nat) < 7 ∧
    countFetches
      (fullTrace "img" 1 ("https://x/video123" ++ "&key=" ++ envOrdering.apiKey)) = 1 := by
  have h := @effect_ordering envOrdering "img" 1
    (fullTrace "img" 1 ("https://x/video123" ++ "&key=" ++ envOrdering.apiKey))
    (Except.ok (createObjectURL [7, 7])) (by rfl)
  exact ⟨h.1, (h.2.1 5 0 (by rfl)).1, (h.2.1 5 0 (by rfl)).2,
    h.2.2.2.1 7 ("https://x/video123" ++ "&key=" ++ envOrdering.apiKey) 5 0 (by rfl) (by rfl),
    h.2.2.2.2 (createObjectURL [7, 7]) rfl⟩

/-- Claim C8: in every completed run whose submission call returned
successfully, generateCinematicAnimation emits the crafting progress message
at trace index 2, immediately after the submission event at index 1 and
before every wait or poll event (all of which sit at index 3 or later); the
crafting message is not one of the six cyclic flavor strings; and on every
successful run the progress callback is invoked at least three times. -/
theorem crafting_message :
    craftingMsg ∉ loadingMessages ∧
    ∀ env img fuel tr r op0,
      env.submit (mkSubmitRequest img) = Except.ok op0 →
      generateCinematicAnimation env img fuel = some (tr, r) →
      tr[1]? = some (Event.submitCall (mkSubmitRequest img)) ∧
      tr[2]? = some (Event.progress craftingMsg) ∧
      (∀ i ms, tr[i]? = some (Event.wait ms) → 2 < i) ∧
      (∀ i k, tr[i]? = some (Event.pollCall k) → 2 < i) ∧
      (∀ a, r = Except.ok a → 3 ≤ (progressMessages tr).length) := by
  refine ⟨by decide, ?_⟩
  intro env img fuel tr r op0 hsub h
  have h3 : ∀ a, r = Except.ok a → 3 ≤ (progressMessages tr).length := by
    intro a ha
    subst ha
    obtain ⟨tr2, htry, htr⟩ := generate_ok_shape h
    obtain ⟨op0x, ptr, opF, link, hs2, hp2, hl2, hok2, ha2, htr2⟩ := tryBody_ok_shape htry
    rw [htr2] at htr
    subst htr
    simp only [progressMessages, List.filterMap_cons, List.filterMap_append,
      List.length_cons, List.length_append]
    omega
  obtain ⟨tr2, r2, htry, htr⟩ := generate_trace_shape h
  rcases tryBody_shape htry with ⟨e, hsub2, _⟩ |
    ⟨op0x, ptr, pres, rest, hsub2, hploop, htr2, hrest⟩
  · rw [hsub] at hsub2
    simp at hsub2
  · rw [htr2] at htr
    subst htr
    refine ⟨by simp, by simp, ?_, ?_, h3⟩
    · intro i ms hi
      cases i with
      | zero => simp at hi
      | succ i =>
          cases i with
          | zero => simp at hi
          | succ i =>
              cases i with
              | zero => simp at hi
              | succ n => omega
    · intro i k hi
      cases i with
      | zero => simp at hi
      | succ i =>
          cases i with
          | zero => simp at hi
          | succ i =>
              cases i with
              | zero => simp at hi
              | succ n => omega

/-- Trace of the failing-download run used in the crafting witness. -/
def trDownloadFail : List Event :=
  [Event.progress initializingMsg,
   Event.submitCall (mkSubmitRequest "img"),
   Event.progress craftingMsg,
   Event.progress downloadingMsg,
   Event.fetchCall "https://x/video123&key=K"]

/-- Witness for crafting_message: a concrete run that fails at download still
carries the crafting message at index 2, and the successful scenario run has
at least three progress strings. -/
theorem crafting_message_witness :
    craftingMsg ∉ loadingMessages ∧
    trDownloadFail[1]? = some (Event.submitCall (mkSubmitRequest "img")) ∧
    trDownloadFail[2]? = some (Event.progress craftingMsg) ∧
    2 < 3 ∧
    3 ≤ (progressMessages trScenario).length := by
  have h := crafting_message
  have h1 := h.2 envDownloadFail "img" 0 trDownloadFail (Except.error downloadFailedMsg)
    opDoneScenario (by rfl) (by rfl)
  have h2 := h.2 envScenario "img" 1 trScenario (Except.ok (createObjectURL [7, 7]))
    opNotDone (by rfl) (by rfl)
  exact ⟨h.1, h1.1, h1.2.1, h2.2.2.1 3 10000 (by rfl),
    h2.2.2.2.2 (createObjectURL [7, 7]) rfl⟩

end Gemini
